import Mathlib

/-!
Verification of the sitefresh-restaurant content pipeline.

This file gives a shallow embedding, in Lean, of the pure content of the
pipeline stages found in `lib/slug.ts`, `lib/normalize.ts`, `lib/rewrite.ts`,
`lib/images.ts`, `lib/schema.ts` and `lib/scrape.ts`, and proves properties
about them.  Effectful platform primitives (the `fetch` of an image, the
chat-completion request, `JSON.parse`, the WHATWG `URL` constructor) are
modelled either as explicit oracle parameters or as small Lean functions
whose doc comments state which builtin they model.
-/

set_option maxRecDepth 10000

/-- JavaScript string truthiness for an optional string value:
`undefined` and the empty string are falsy, every other string is truthy. -/
def truthyS : Option String → Bool
  | none => false
  | some s => s ≠ ""

/-- JavaScript `a || d` for an optional string `a` and a default string `d`:
the default is used when `a` is `undefined` or the empty string. -/
def jsOrDefault (a : Option String) (d : String) : String :=
  match a with
  | none => d
  | some s => if s = "" then d else s

/-- JavaScript `a || b` where both operands are optional strings
(as in `match[2] || match[3]` on a regex match array). -/
def jsOrO (a b : Option String) : Option String :=
  match a with
  | none => b
  | some s => if s = "" then b else s

/-- The characters matched by the JavaScript regex class `\s`
(restricted to the ASCII range used by this repository). -/
def isJsSpace (c : Char) : Bool :=
  c = ' ' ∨ c = '\t' ∨ c = '\n' ∨ c = '\r' ∨ c = '\x0b' ∨ c = '\x0c'

/-- The characters matched by the JavaScript regex class `\w`:
ASCII letters, digits and the underscore. -/
def isWordChar (c : Char) : Bool :=
  c.isAlphanum ∨ c = '_'

/-- Lowercasing used throughout (structural form of `toLowerCase`). -/
def lowerStr (s : String) : String :=
  String.mk (s.toList.map Char.toLower)

/-- JavaScript `String.prototype.trim` (ASCII whitespace). -/
def trimStr (s : String) : String :=
  String.mk (((s.toList.dropWhile isJsSpace).reverse.dropWhile isJsSpace).reverse)

/-- JavaScript `str.startsWith(pre)`. -/
def jsStartsWith (s pre : String) : Bool :=
  pre.toList.isPrefixOf s.toList

/-- Drop the first `n` characters of a string. -/
def dropStr (s : String) (n : Nat) : String :=
  String.mk (s.toList.drop n)

/-- Worker for `splitLines`: split at every newline, JS
`str.split('\n')` semantics (an empty trailing piece is kept). -/
def splitLinesAux : List Char → List Char → List String
  | [], acc => [String.mk acc.reverse]
  | ch :: rest, acc =>
    if ch = '\n' then String.mk acc.reverse :: splitLinesAux rest []
    else splitLinesAux rest (ch :: acc)

/-- `str.split('\n')`. -/
def splitLines (s : String) : List String :=
  splitLinesAux s.toList []

/-- The characters after the last occurrence of `sep` (the whole list when
`sep` does not occur): the last element of a split at `sep`. -/
def afterLastChar (sep : Char) (l : List Char) : List Char :=
  (l.reverse.takeWhile (fun c => c ≠ sep)).reverse

/-- A character in the class `[\s_-]` of `slugify`'s second replace. -/
def isSepChar (c : Char) : Bool :=
  isJsSpace c ∨ c = '_' ∨ c = '-'

/-- One pass of `.replace(/[\s_-]+/g, '-')`: every maximal run of
separator characters is replaced by a single hyphen.  The boolean records
whether the previous character belonged to a run being collapsed. -/
def collapseSeps : Bool → List Char → List Char
  | _, [] => []
  | prevSep, c :: rest =>
    if isSepChar c then
      if prevSep then collapseSeps true rest
      else '-' :: collapseSeps true rest
    else c :: collapseSeps false rest

/-- `.replace(/^-+|-+$/g, '')`: drop leading and trailing hyphens. -/
def trimHyphens (l : List Char) : List Char :=
  ((l.dropWhile (fun c => c = '-')).reverse.dropWhile (fun c => c = '-')).reverse

/-- Embedding of `slugify` from `lib/slug.ts` (the identical private copy in
`lib/images.ts` is shared): lowercase, strip characters outside `[\w\s-]`,
collapse runs of `[\s_-]` to single hyphens, trim edge hyphens. -/
def slugify (text : String) : String :=
  let lowered := lowerStr text
  let stripped := lowered.toList.filter (fun c => isWordChar c ∨ isJsSpace c ∨ c = '-')
  String.mk (trimHyphens (collapseSeps false stripped))

/-- Does the character list begin with `"//"`? -/
def startsWithSlashes : List Char → Bool
  | '/' :: '/' :: _ => true
  | _ => false

/-- Characters allowed in a URL scheme after its first letter. -/
def isSchemeChar (c : Char) : Bool :=
  c.isAlpha ∨ c.isDigit ∨ c = '+' ∨ c = '-' ∨ c = '.'

/-- Split a character list at its first occurrence of `"://"`, returning the
scheme characters before it and the characters after it. -/
def splitScheme : List Char → Option (List Char × List Char)
  | [] => none
  | c :: rest =>
    if c = ':' ∧ startsWithSlashes rest then
      some ([], rest.drop 2)
    else
      (splitScheme rest).map (fun p => (c :: p.1, p.2))

/-- Model of the platform builtin `new URL(url).hostname` for the
`scheme://host...` URLs this repository works with: `none` models the URL
constructor throwing.  The authority is what follows the first `"://"` up to
a `/`, `?` or `#`; user information up to a final `@` and a `:port` suffix
are removed and the hostname is lowercased, as the WHATWG parser does. -/
def urlHostname (url : String) : Option String :=
  match splitScheme url.toList with
  | none => none
  | some (scheme, rest) =>
    match scheme with
    | [] => none
    | c :: cs =>
      if c.isAlpha ∧ cs.all isSchemeChar then
        let authority := rest.takeWhile (fun ch => ch ≠ '/' ∧ ch ≠ '?' ∧ ch ≠ '#')
        let hostport := afterLastChar '@' authority
        let host := hostport.takeWhile (fun ch => ch ≠ ':')
        if host.isEmpty then none else some (lowerStr (String.mk host))
      else none

/-- Model of `new URL(url).pathname` (for the same URL fragment): the part of
the URL from the first `/` after the authority up to a `?` or `#`; the root
path is `"/"` when the URL has no path. -/
def urlPathname (url : String) : Option String :=
  match splitScheme url.toList with
  | none => none
  | some (scheme, rest) =>
    match scheme with
    | [] => none
    | c :: cs =>
      if c.isAlpha ∧ cs.all isSchemeChar then
        let afterAuthority := rest.dropWhile (fun ch => ch ≠ '/' ∧ ch ≠ '?' ∧ ch ≠ '#')
        let p := afterAuthority.takeWhile (fun ch => ch ≠ '?' ∧ ch ≠ '#')
        some (if p.isEmpty then "/" else String.mk p)
      else none

/-- Model of Node's `path.basename` on a URL pathname: the final component
after the last `/`. -/
def pathBasename (p : String) : String :=
  String.mk ((p.toList.reverse.takeWhile (fun c => c ≠ '/')).reverse)

/-- Embedding of `createSlugFromUrl` from `lib/slug.ts`: slugify the
hostname with a single leading `www.` removed; when the URL constructor
throws, fall back to slugifying the raw input string. -/
def createSlugFromUrl (url : String) : String :=
  match urlHostname url with
  | some hostname =>
    let stripped := if jsStartsWith hostname "www." then dropStr hostname 4 else hostname
    slugify stripped
  | none => slugify url

/-! ## The canonical `RestaurantSite` record (`lib/schema.ts`) -/

/-- `Address` from `lib/schema.ts`. -/
structure Address where
  street : Option String
  city : Option String
  state : Option String
  postalCode : Option String
  country : Option String
  googleMapsUrl : Option String
deriving Repr, DecidableEq

/-- `Hour` from `lib/schema.ts`.  The source fields are `open` and `close`;
`open` is a Lean keyword, so both are suffixed with `Time` here. -/
structure Hour where
  day : String
  openTime : String
  closeTime : String
deriving Repr, DecidableEq

/-- `MenuItem` from `lib/schema.ts`. -/
structure MenuItem where
  name : String
  description : Option String
  price : Option String
  image : Option String
  dietary : Option (List String)
deriving Repr, DecidableEq

/-- `MenuCategory` from `lib/schema.ts`. -/
structure MenuCategory where
  name : String
  items : List MenuItem
deriving Repr, DecidableEq

/-- `Review` from `lib/schema.ts`.  The schema constrains `rating` to
`[1,5]` when validation is actually run. -/
structure Review where
  source : Option String
  text : String
  rating : Option Int
  author : Option String
deriving Repr, DecidableEq

/-- The anonymous section object of `lib/schema.ts` (`{title, body, image?}`). -/
structure SiteSection where
  title : String
  body : String
  image : Option String
deriving Repr, DecidableEq

/-- The anonymous social-links object of `lib/schema.ts`. -/
structure Social where
  instagram : Option String
  facebook : Option String
  tiktok : Option String
  x : Option String
deriving Repr, DecidableEq

/-- The anonymous theme object of `lib/schema.ts`; its three fields carry
zod defaults and are therefore always present after validation. -/
structure Theme where
  primary : String
  accent : String
  heroOverlay : String
deriving Repr, DecidableEq

/-- The zod default theme (`.default({})` with the three inner defaults). -/
def defaultTheme : Theme :=
  { primary := "#b91c1c", accent := "#111827", heroOverlay := "rgba(0,0,0,0.35)" }

/-- `RestaurantSite` from `lib/schema.ts`, the canonical pipeline record. -/
structure RestaurantSite where
  slug : String
  name : String
  tagline : Option String
  heroImage : Option String
  logo : Option String
  phone : Option String
  email : Option String
  address : Option Address
  hours : Option (List Hour)
  reservationUrl : Option String
  orderOnlineUrl : Option String
  social : Option Social
  sections : Option (List SiteSection)
  reviews : Option (List Review)
  menu : Option (List MenuCategory)
  images : Option (List String)
  theme : Theme
  sourceUrl : String
  lastScrapedAt : String
deriving Repr, DecidableEq

/-! ## `ScrapedData` (`lib/scrape.ts`) -/

/-- The address object inside `ScrapedData` (no `googleMapsUrl`). -/
structure ScrapedAddress where
  street : Option String
  city : Option String
  state : Option String
  postalCode : Option String
  country : Option String
deriving Repr, DecidableEq

/-- Menu items inside `ScrapedData` carry no `dietary` field. -/
structure ScrapedMenuItem where
  name : String
  description : Option String
  price : Option String
  image : Option String
deriving Repr, DecidableEq

/-- A menu category inside `ScrapedData`. -/
structure ScrapedMenuCategory where
  name : String
  items : List ScrapedMenuItem
deriving Repr, DecidableEq

/-- `ScrapedData` from `lib/scrape.ts`: the loosely-typed record the
Extractor produces; `images`, `sections`, `menu`, `social` and `reviews`
are always present (possibly empty), the rest is optional. -/
structure ScrapedData where
  name : Option String
  tagline : Option String
  phone : Option String
  email : Option String
  address : Option ScrapedAddress
  hours : Option String
  heroImage : Option String
  logo : Option String
  images : List String
  sections : List SiteSection
  menu : List ScrapedMenuCategory
  social : Social
  reviews : List Review
deriving Repr, DecidableEq

/-! ## A small backtracking regex engine

`parseHours` in `lib/normalize.ts` matches each line against two JavaScript
regexes.  The engine below implements the standard leftmost, greedy,
backtracking semantics of those regexes (alternation tries its left branch
first, `*` and `?` consume as much as possible before backtracking) with
numbered capture groups, so the two patterns can be transcribed literally.
The `fuel` argument bounds recursion depth; every use below passes a fuel
far larger than any backtracking path on the strings involved. -/

/-- Regex abstract syntax: literal, one-character class, `*`, `?`,
concatenation, alternation and a numbered capture group. -/
inductive RE where
  | lit : String → RE
  | cls : (Char → Bool) → RE
  | star : RE → RE
  | opt : RE → RE
  | seq : RE → RE → RE
  | alt : RE → RE → RE
  | group : Nat → RE → RE

/-- The capture groups of a match: group index paired with captured text. -/
abbrev Caps := List (Nat × String)

/-- Drop a literal character sequence from the front of a list, or fail. -/
def dropLit : List Char → List Char → Option (List Char)
  | [], cs => some cs
  | _ :: _, [] => none
  | p :: ps, c :: cs => if p = c then dropLit ps cs else none

/-- Backtracking matcher in continuation-passing style: try to match `re`
at the front of the input, calling `k` with the rest of the input and the
captures recorded so far for each candidate match, in the order a
JavaScript engine would try them. -/
def mMatch : Nat → RE → List Char → Caps →
    (List Char → Caps → Option Caps) → Option Caps
  | 0, _, _, _, _ => none
  | Nat.succ _, RE.lit s, cs, caps, k =>
    match dropLit s.toList cs with
    | some rest => k rest caps
    | none => none
  | Nat.succ _, RE.cls p, cs, caps, k =>
    match cs with
    | [] => none
    | c :: rest => if p c then k rest caps else none
  | Nat.succ fuel, RE.seq a b, cs, caps, k =>
    mMatch fuel a cs caps (fun cs' caps' => mMatch fuel b cs' caps' k)
  | Nat.succ fuel, RE.alt a b, cs, caps, k =>
    match mMatch fuel a cs caps k with
    | some r => some r
    | none => mMatch fuel b cs caps k
  | Nat.succ fuel, RE.opt a, cs, caps, k =>
    match mMatch fuel a cs caps k with
    | some r => some r
    | none => k cs caps
  | Nat.succ fuel, RE.star a, cs, caps, k =>
    match mMatch fuel a cs caps
        (fun cs' caps' => mMatch fuel (RE.star a) cs' caps' k) with
    | some r => some r
    | none => k cs caps
  | Nat.succ fuel, RE.group i a, cs, caps, k =>
    mMatch fuel a cs caps (fun cs' caps' =>
      k cs' ((i, String.mk (cs.take (cs.length - cs'.length))) :: caps'))

/-- `String.prototype.match` without the `g` flag: try the pattern at every
start position from the left and return the captures of the first match. -/
def reSearch (fuel : Nat) (pat : RE) : List Char → Option Caps
  | [] => mMatch fuel pat [] [] (fun _ caps => some caps)
  | c :: rest =>
    match mMatch fuel pat (c :: rest) [] (fun _ caps => some caps) with
    | some caps => some caps
    | none => reSearch fuel pat rest

/-- `match[i]` on a JavaScript match array: the capture of group `i`, or
`undefined` when the group did not participate in the match. -/
def capGet (caps : Caps) (i : Nat) : Option String :=
  (caps.find? (fun p => p.1 = i)).map (fun p => p.2)

/-- Concatenation of a list of regexes. -/
def seqList : List RE → RE
  | [] => RE.lit ""
  | [r] => r
  | r :: rs => RE.seq r (seqList rs)

/-- Alternation of a list of regexes, tried left to right. -/
def altList : List RE → RE
  | [] => RE.lit ""
  | [r] => r
  | r :: rs => RE.alt r (altList rs)

/-- The day-name alternation
`(monday|tuesday|wednesday|thursday|friday|saturday|sunday|mon|tue|wed|thu|fri|sat|sun)`
of both patterns in `parseHours`. -/
def dayRE : RE :=
  altList (["monday", "tuesday", "wednesday", "thursday", "friday",
            "saturday", "sunday", "mon", "tue", "wed", "thu", "fri",
            "sat", "sun"].map RE.lit)

/-- The time fragment `(\d{1,2}:\d{2}\s*(am|pm)?)` of both patterns:
`gTime` is the group number of the whole fragment, `gAmPm` the group
number of the inner `(am|pm)`. -/
def timeRE (gTime gAmPm : Nat) : RE :=
  RE.group gTime (seqList
    [RE.cls Char.isDigit, RE.opt (RE.cls Char.isDigit), RE.lit ":",
     RE.cls Char.isDigit, RE.cls Char.isDigit,
     RE.star (RE.cls isJsSpace),
     RE.opt (RE.group gAmPm (RE.alt (RE.lit "am") (RE.lit "pm")))])

/-- The class `[\s:]`. -/
def clsSpaceColon : RE := RE.cls (fun c => isJsSpace c ∨ c = ':')

/-- The class `[\s-]`. -/
def clsSpaceDash : RE := RE.cls (fun c => isJsSpace c ∨ c = '-')

/-- The first pattern of `parseHours` (comment in source: `"Monday: 11am-10pm"`):
`/(day...)[\s:]*(\d{1,2}:\d{2}\s*(am|pm)?)[\s-]*(\d{1,2}:\d{2}\s*(am|pm)?)/i`. -/
def hoursPattern1 : RE :=
  seqList [RE.group 1 dayRE, RE.star clsSpaceColon,
           timeRE 2 3, RE.star clsSpaceDash, timeRE 4 5]

/-- The second pattern of `parseHours` (comment in source: `"Mon-Fri: 9am-5pm"`):
`/(day...)[\s-]*(day...)[\s:]*(\d{1,2}:\d{2}\s*(am|pm)?)[\s-]*(\d{1,2}:\d{2}\s*(am|pm)?)/i`. -/
def hoursPattern2 : RE :=
  seqList [RE.group 1 dayRE, RE.star clsSpaceDash, RE.group 2 dayRE,
           RE.star clsSpaceColon, timeRE 3 4, RE.star clsSpaceDash, timeRE 5 6]

/-- Recursion-depth budget for the matcher, far above any backtracking path
of the two patterns on the opening-hours lines considered in this file. -/
def reFuel : Nat := 4000

/-- Is `pat` a contiguous substring of the list? (JS `String.includes`.) -/
def hasSub (pat : List Char) : List Char → Bool
  | [] => pat.isEmpty
  | c :: rest => (dropLit pat (c :: rest)).isSome ∨ hasSub pat rest

/-- Embedding of `normalizeTime` from `lib/normalize.ts`: trim and
lowercase; both the am/pm branch and the 24-hour branch return that
cleaned string unchanged. -/
def normalizeTime (time : String) : String :=
  let cleanTime := lowerStr (trimStr time)
  if hasSub "am".toList cleanTime.toList ∨ hasSub "pm".toList cleanTime.toList then
    cleanTime
  else
    cleanTime

/-- `day.charAt(0).toUpperCase() + day.slice(1)`. -/
def capitalizeFirst (s : String) : String :=
  match s.toList with
  | [] => ""
  | c :: rest => String.mk (c.toUpper :: rest)

/-- The body of the `if (match)` block of `parseHours`:
`day = match[1].toLowerCase()`, `open = match[2] || match[3]`,
`close = match[4] || match[5]`, and an `Hour` is produced only when both
`open` and `close` are truthy. -/
def hourFromMatch (caps : Caps) : Option Hour :=
  match capGet caps 1 with
  | none => none
  | some d =>
    let day := lowerStr d
    let openCap := jsOrO (capGet caps 2) (capGet caps 3)
    let closeCap := jsOrO (capGet caps 4) (capGet caps 5)
    if truthyS openCap ∧ truthyS closeCap then
      some { day := capitalizeFirst day,
             openTime := normalizeTime (openCap.getD ""),
             closeTime := normalizeTime (closeCap.getD "") }
    else none

/-- One iteration of the per-line loop of `parseHours`: the patterns are
tried in order; the loop `break`s only when an `Hour` was pushed, so a line
that matches a pattern without producing truthy `open`/`close` falls
through to the next pattern.  `line.match(p)` with the `/i` flag is
modelled by matching the lowercased line (every capture `parseHours` uses
is lowercased by the source before use, so the output is unaffected). -/
def parseLine (line : String) : Option Hour :=
  let cs := (lowerStr line).toList
  match reSearch reFuel hoursPattern1 cs with
  | some caps =>
    match hourFromMatch caps with
    | some h => some h
    | none =>
      match reSearch reFuel hoursPattern2 cs with
      | some caps2 => hourFromMatch caps2
      | none => none
  | none =>
    match reSearch reFuel hoursPattern2 cs with
    | some caps2 => hourFromMatch caps2
    | none => none

/-- Embedding of `parseHours` from `lib/normalize.ts`: split the source
text into trimmed non-empty lines, collect at most one `Hour` per line,
and return `undefined` when nothing was collected (or when the input was
absent or empty, both falsy). -/
def parseHours (hoursString : Option String) : Option (List Hour) :=
  match hoursString with
  | none => none
  | some hs =>
    if hs = "" then none
    else
      let lines := ((splitLines hs).map trimStr).filter (fun l => l ≠ "")
      let hours := lines.filterMap parseLine
      if hours.length > 0 then some hours else none

/-! ## The Normalizer (`lib/normalize.ts`) -/

/-- Embedding of `normalizeRestaurantData` from `lib/normalize.ts`.  The
only impure expression in the source is `new Date().toISOString()`; it is
made explicit as the `now` parameter.  Every other line is a pure mapping
of `scrapedData` into the canonical record. -/
def normalizeRestaurantData (scrapedData : ScrapedData) (sourceUrl : String)
    (now : String) : RestaurantSite :=
  let slug := createSlugFromUrl sourceUrl
  let hours := parseHours scrapedData.hours
  let address : Option Address := scrapedData.address.map (fun a =>
    { street := a.street, city := a.city, state := a.state,
      postalCode := a.postalCode, country := a.country, googleMapsUrl := none })
  let menu : List MenuCategory := scrapedData.menu.map (fun category =>
    { name := category.name,
      items := category.items.map (fun item =>
        { name := item.name, description := item.description,
          price := item.price, image := item.image, dietary := none }) })
  let sections : List SiteSection := scrapedData.sections.map (fun s =>
    { title := s.title, body := s.body, image := s.image })
  let reviews : List Review := scrapedData.reviews.map (fun r =>
    { source := r.source, text := r.text, rating := r.rating, author := r.author })
  { slug := slug,
    name := jsOrDefault scrapedData.name "Restaurant",
    tagline := scrapedData.tagline,
    heroImage := scrapedData.heroImage,
    logo := scrapedData.logo,
    phone := scrapedData.phone,
    email := scrapedData.email,
    address := address,
    hours := hours,
    -- `scrapedData.reservationUrl` / `.orderOnlineUrl`: the `ScrapedData`
    -- interface declares neither property, so both reads are `undefined`.
    reservationUrl := none,
    orderOnlineUrl := none,
    social := some scrapedData.social,
    sections := some sections,
    reviews := some reviews,
    menu := some menu,
    images := some scrapedData.images,
    theme := { primary := "#b91c1c", accent := "#111827",
               heroOverlay := "rgba(0,0,0,0.35)" },
    sourceUrl := sourceUrl,
    lastScrapedAt := now }

/-! ## JSON values and the zod `RestaurantSite` validator (`lib/schema.ts`)

The Rewriter parses the model's reply with `JSON.parse` and validates the
result with `RestaurantSiteSchema.parse`.  `Json` below is the value space
of `JSON.parse`; `validateRestaurantSite` embeds the zod schema: a `none`
result models `.parse` throwing a `ZodError`. -/

/-- A parsed JSON value. -/
inductive Json where
  | null : Json
  | bool : Bool → Json
  | num : Int → Json
  | str : String → Json
  | arr : List Json → Json
  | obj : List (String × Json) → Json
deriving Repr

/-- The fields of a JSON object, or `none` for any other value. -/
def Json.asObj : Json → Option (List (String × Json))
  | .obj fields => some fields
  | _ => none

/-- Look up a key in a JSON object; `none` models the property being
`undefined`. -/
def jGet (fields : List (String × Json)) (k : String) : Option Json :=
  (fields.find? (fun p => p.1 = k)).map (fun p => p.2)

/-- `z.string()`. -/
def vString : Json → Option String
  | .str s => some s
  | _ => none

/-- `z.number()`. -/
def vNumber : Json → Option Int
  | .num n => some n
  | _ => none

/-- `z.string().url()`: zod accepts exactly the strings the `URL`
constructor accepts, modelled here by `urlHostname`. -/
def vUrlString (j : Json) : Option String :=
  (vString j).bind (fun s => if (urlHostname s).isSome then some s else none)

/-- An optional object property: absent means `none`; a present property
must satisfy the field validator or the whole parse fails. -/
def vOpt (f : Json → Option α) (fields : List (String × Json)) (k : String) :
    Option (Option α) :=
  match jGet fields k with
  | none => some none
  | some j => (f j).map some

/-- A required object property. -/
def vReq (f : Json → Option α) (fields : List (String × Json)) (k : String) :
    Option α :=
  (jGet fields k).bind f

/-- `z.array(f)`. -/
def vArray (f : Json → Option α) : Json → Option (List α)
  | .arr xs => xs.mapM f
  | _ => none

/-- The `dietary` enum of `MenuItem`. -/
def vDietary (j : Json) : Option String :=
  (vString j).bind (fun s =>
    if s = "vegan" ∨ s = "veg" ∨ s = "gf" ∨ s = "spicy" ∨ s = "halal" ∨ s = "kosher"
    then some s else none)

/-- The zod `Address` object. -/
def validateAddress (j : Json) : Option Address := do
  let fields ← j.asObj
  let street ← vOpt vString fields "street"
  let city ← vOpt vString fields "city"
  let state ← vOpt vString fields "state"
  let postalCode ← vOpt vString fields "postalCode"
  let country ← vOpt vString fields "country"
  let googleMapsUrl ← vOpt vUrlString fields "googleMapsUrl"
  pure { street := street, city := city, state := state,
         postalCode := postalCode, country := country,
         googleMapsUrl := googleMapsUrl }

/-- The zod `Hour` object. -/
def validateHour (j : Json) : Option Hour := do
  let fields ← j.asObj
  let day ← vReq vString fields "day"
  let o ← vReq vString fields "open"
  let c ← vReq vString fields "close"
  pure { day := day, openTime := o, closeTime := c }

/-- The zod `MenuItem` object. -/
def validateMenuItem (j : Json) : Option MenuItem := do
  let fields ← j.asObj
  let name ← vReq vString fields "name"
  let description ← vOpt vString fields "description"
  let price ← vOpt vString fields "price"
  let image ← vOpt vString fields "image"
  let dietary ← vOpt (vArray vDietary) fields "dietary"
  pure { name := name, description := description, price := price,
         image := image, dietary := dietary }

/-- The zod `MenuCategory` object. -/
def validateMenuCategory (j : Json) : Option MenuCategory := do
  let fields ← j.asObj
  let name ← vReq vString fields "name"
  let items ← vReq (vArray validateMenuItem) fields "items"
  pure { name := name, items := items }

/-- The zod `Review` object; `rating` carries `.min(1).max(5)`. -/
def validateReview (j : Json) : Option Review := do
  let fields ← j.asObj
  let source ← vOpt vString fields "source"
  let text ← vReq vString fields "text"
  let rating ← vOpt (fun v => (vNumber v).bind (fun n =>
    if 1 ≤ n ∧ n ≤ 5 then some n else none)) fields "rating"
  let author ← vOpt vString fields "author"
  pure { source := source, text := text, rating := rating, author := author }

/-- The anonymous zod section object. -/
def validateSection (j : Json) : Option SiteSection := do
  let fields ← j.asObj
  let title ← vReq vString fields "title"
  let body ← vReq vString fields "body"
  let image ← vOpt vString fields "image"
  pure { title := title, body := body, image := image }

/-- The anonymous zod social object; each platform link carries `.url()`. -/
def validateSocial (j : Json) : Option Social := do
  let fields ← j.asObj
  let instagram ← vOpt vUrlString fields "instagram"
  let facebook ← vOpt vUrlString fields "facebook"
  let tiktok ← vOpt vUrlString fields "tiktok"
  let x ← vOpt vUrlString fields "x"
  pure { instagram := instagram, facebook := facebook, tiktok := tiktok, x := x }

/-- The theme object with its `.default({})` and per-field defaults: an
absent `theme` key yields the default triple; a present object has each
missing colour filled in; a present non-object fails. -/
def validateTheme (fields : List (String × Json)) : Option Theme :=
  match jGet fields "theme" with
  | none => some defaultTheme
  | some j => do
    let tf ← j.asObj
    let primary ← match jGet tf "primary" with
      | none => some "#b91c1c"
      | some v => vString v
    let accent ← match jGet tf "accent" with
      | none => some "#111827"
      | some v => vString v
    let heroOverlay ← match jGet tf "heroOverlay" with
      | none => some "rgba(0,0,0,0.35)"
      | some v => vString v
    pure { primary := primary, accent := accent, heroOverlay := heroOverlay }

/-- The required and defaulted fields of the zod `RestaurantSite` object
(first half of `validateRestaurantSite`, split only to keep compilation
tractable): everything except the eight optional structured collections. -/
def validateSiteCore (fields : List (String × Json)) : Option RestaurantSite := do
  let slug ← vReq vString fields "slug"
  let name ← vReq vString fields "name"
  let tagline ← vOpt vString fields "tagline"
  let heroImage ← vOpt vString fields "heroImage"
  let logo ← vOpt vString fields "logo"
  let phone ← vOpt vString fields "phone"
  let email ← vOpt vString fields "email"
  let theme ← validateTheme fields
  let sourceUrl ← vReq vUrlString fields "sourceUrl"
  let lastScrapedAt ← vReq vString fields "lastScrapedAt"
  some (RestaurantSite.mk slug name tagline heroImage logo phone email
    none none none none none none none none none theme sourceUrl lastScrapedAt)

/-- The eight optional structured properties of the zod `RestaurantSite`
object (second half of `validateRestaurantSite`), filled into `s`. -/
def validateSiteRest (fields : List (String × Json)) (s : RestaurantSite) :
    Option RestaurantSite := do
  let address ← vOpt validateAddress fields "address"
  let hours ← vOpt (vArray validateHour) fields "hours"
  let reservationUrl ← vOpt vUrlString fields "reservationUrl"
  let orderOnlineUrl ← vOpt vUrlString fields "orderOnlineUrl"
  let social ← vOpt validateSocial fields "social"
  let sections ← vOpt (vArray validateSection) fields "sections"
  let reviews ← vOpt (vArray validateReview) fields "reviews"
  let menu ← vOpt (vArray validateMenuCategory) fields "menu"
  let images ← vOpt (vArray vString) fields "images"
  some { s with address := address, hours := hours,
                reservationUrl := reservationUrl,
                orderOnlineUrl := orderOnlineUrl, social := social,
                sections := sections, reviews := reviews, menu := menu,
                images := images }

/-- Embedding of `RestaurantSite.parse` from `lib/schema.ts` (zod):
`some` is a successful parse (unknown keys stripped), `none` models a
thrown `ZodError`.  A property fails exactly when it fails in the zod
schema, so this composition of the two halves parses the same objects. -/
def validateRestaurantSite (j : Json) : Option RestaurantSite := do
  let fields ← j.asObj
  let core ← validateSiteCore fields
  validateSiteRest fields core

/-! ## The Rewriter (`lib/rewrite.ts`) -/

/-- Outcome of the chat-completion request in `rewriteContent`.
`reqFailure` models the `openai.chat.completions.create` call throwing
(network error, timeout); `success content` models a response whose
`choices[0]?.message?.content` is `content` (`none` when the optional
chain yields `undefined`). -/
inductive ChatOutcome where
  | reqFailure : ChatOutcome
  | success : Option String → ChatOutcome

/-- Embedding of `rewriteContent` from `lib/rewrite.ts`.  `jsonParse`
models the platform's `JSON.parse` (`none` = it throws), `apiKey` models
`process.env.OPENAI_API_KEY` (`none` = unset), and `outcome` the external
request.  Every `throw` inside the `try` lands in the `catch`, which
returns `raw`; the function has no other exit, so the stage never aborts
the pipeline. -/
def rewriteContent (jsonParse : String → Option Json) (apiKey : Option String)
    (outcome : ChatOutcome) (raw : RestaurantSite) : RestaurantSite :=
  if ¬ truthyS apiKey then
    raw
  else
    match outcome with
    | .reqFailure => raw
    | .success content =>
      match content with
      | none => raw
      | some c =>
        if c = "" then raw
        else
          match jsonParse c with
          | none => raw
          | some cleaned =>
            match validateRestaurantSite cleaned with
            | none => raw
            | some validated => validated

/-- What the Rewriter accepts: the parsed-and-validated record of the
model's reply, if any.  `rewriteContent` returns this record when it is
`some` and falls back to its input otherwise. -/
def rewriteAccepted (jsonParse : String → Option Json)
    (outcome : ChatOutcome) : Option RestaurantSite :=
  match outcome with
  | .reqFailure => none
  | .success none => none
  | .success (some c) =>
    if c = "" then none
    else (jsonParse c).bind validateRestaurantSite

/-! ## The Image Localizer (`lib/images.ts`) -/

/-- Embedding of `downloadImage` from `lib/images.ts`.  `fetchOk url`
models whether the `fetch` of `url` completes with a successful response
and the bytes are written without error; `some p` is the returned public
path, `none` the `null` returned by the `catch` block.  When no filename
is supplied, the fallback name is the basename of the URL's path (the
`URL` constructor throwing there is also caught, giving `null`). -/
def downloadImage (fetchOk : String → Bool) (url slug : String)
    (filename : Option String) : Option String :=
  let fname? : Option String :=
    match jsOrO filename none with
    | some f => some f
    | none =>
      match urlPathname url with
      | none => none
      | some p => some (jsOrDefault (some (pathBasename p)) "image.jpg")
  match fname? with
  | none => none
  | some finalFilename =>
    if fetchOk url then
      some ("/_imports/" ++ slug ++ "/" ++ finalFilename)
    else
      none

/-- The per-menu-item step of `downloadAllImages`: download the item's
image under `slugify(item.name) ++ ".jpg"` when the reference is truthy
and not already local, keeping the old reference when the download fails. -/
def localizeMenuItem (fetchOk : String → Bool) (slug : String)
    (item : MenuItem) : MenuItem :=
  match item.image with
  | some img =>
    if truthyS (some img) ∧ ¬ jsStartsWith img "/" then
      let filename := slugify item.name ++ ".jpg"
      match downloadImage fetchOk img slug (some filename) with
      | some localPath => { item with image := some localPath }
      | none => item
    else item
  | none => item

/-- The per-section step of `downloadAllImages`, with the filename derived
from the section title. -/
def localizeSection (fetchOk : String → Bool) (slug : String)
    (s : SiteSection) : SiteSection :=
  match s.image with
  | some img =>
    if truthyS (some img) ∧ ¬ jsStartsWith img "/" then
      let filename := slugify s.title ++ ".jpg"
      match downloadImage fetchOk img slug (some filename) with
      | some localPath => { s with image := some localPath }
      | none => s
    else s
  | none => s

/-- Embedding of `downloadAllImages` from `lib/images.ts`: the hero image
and logo are localized under the fixed names `hero.jpg` and `logo.jpg`,
menu-item and section images under slugified names; a reference is only
touched when it is truthy and does not already start with `/`, and only
replaced when its download returns a path.  All other fields of the spread
copy `{...site}` are untouched. -/
def downloadAllImages (fetchOk : String → Bool) (site : RestaurantSite)
    (slug : String) : RestaurantSite :=
  let heroImage :=
    match site.heroImage with
    | some img =>
      if truthyS (some img) ∧ ¬ jsStartsWith img "/" then
        match downloadImage fetchOk img slug (some "hero.jpg") with
        | some localPath => some localPath
        | none => some img
      else some img
    | none => none
  let logo :=
    match site.logo with
    | some img =>
      if truthyS (some img) ∧ ¬ jsStartsWith img "/" then
        match downloadImage fetchOk img slug (some "logo.jpg") with
        | some localPath => some localPath
        | none => some img
      else some img
    | none => none
  let menu :=
    match site.menu with
    | some categories => some (categories.map (fun category =>
        { category with items := category.items.map (localizeMenuItem fetchOk slug) }))
    | none => none
  let sections :=
    match site.sections with
    | some ss => some (ss.map (localizeSection fetchOk slug))
    | none => none
  { site with heroImage := heroImage, logo := logo,
              menu := menu, sections := sections }

/-! ## Review extraction (`lib/scrape.ts`) -/

/-- The first run of consecutive digits in a character list
(`.match(/\d+/)?.[0]`). -/
def firstDigitRun : List Char → Option String
  | [] => none
  | c :: rest =>
    if c.isDigit then some (String.mk (c :: rest.takeWhile Char.isDigit))
    else firstDigitRun rest

/-- `parseInt` on a string of decimal digits. -/
def parseIntDec (s : String) : Int :=
  Int.ofNat (s.toList.foldl (fun acc c => acc * 10 + (c.toNat - '0'.toNat)) 0)

/-- The per-element body of `extractReviews` in `lib/scrape.ts` (lines
362–373), applied to one element matched by a review selector: `text` is
the element's trimmed text, `ratingText` the text of its `.rating, .stars`
descendant, `authorText` the text of its `.author, .name` descendant.
A review is kept when the text is truthy and longer than 20 characters;
the rating is `parseInt` of the first digit run of `ratingText` whenever
such a run exists (no range check), and `source` is never set. -/
def extractReviewFromElement (text ratingText authorText : String) :
    Option Review :=
  let t := trimStr text
  let rating : Option Int :=
    match firstDigitRun ratingText.toList with
    | some digits => if digits ≠ "" then some (parseIntDec digits) else none
    | none => none
  let author := trimStr authorText
  if t ≠ "" ∧ t.length > 20 then
    some { source := none, text := t, rating := rating,
           author := if author = "" then none else some author }
  else none

/-! ## Sample data used by witnesses and counterexamples -/

/-- A `ScrapedData` record with nothing extracted. -/
def emptyScraped : ScrapedData :=
  { name := none, tagline := none, phone := none, email := none,
    address := none, hours := none, heroImage := none, logo := none,
    images := [], sections := [], menu := [],
    social := { instagram := none, facebook := none, tiktok := none, x := none },
    reviews := [] }

/-- A normalized record with one remote hero image, one remote logo, one
menu category holding a remote-image item and an already-local item, and
one section with a remote image. -/
def sampleSite : RestaurantSite :=
  { slug := "a", name := "A", tagline := none,
    heroImage := some "http://img.example.com/h.png",
    logo := some "http://img.example.com/logo.png",
    phone := none, email := none, address := none, hours := none,
    reservationUrl := none, orderOnlineUrl := none, social := none,
    sections := some [{ title := "Our Story", body := "Long ago...",
                        image := some "http://img.example.com/story.png" }],
    reviews := none,
    menu := some [{ name := "Mains", items :=
      [{ name := "Beef Chow Mein", description := none, price := none,
         image := some "http://img.example.com/mein.png", dietary := none },
       { name := "Local Dish", description := none, price := none,
         image := some "/already/local.png", dietary := none }] }],
    images := some ["http://img.example.com/h.png"],
    theme := defaultTheme,
    sourceUrl := "http://a.example.com", lastScrapedAt := "t0" }

/-- A variant of `sampleSite` whose hero image is already a local path. -/
def sampleSiteLocal : RestaurantSite :=
  { sampleSite with heroImage := some "/local/hero.png" }

/-- A download oracle under which exactly the logo's URL fails. -/
def fetchOkSample : String → Bool :=
  fun u => u ≠ "http://img.example.com/logo.png"

/-- A model reply that validates but carries a different slug than the
record the Rewriter was given. -/
def jsonSiteB : Json :=
  Json.obj [("slug", .str "b"), ("name", .str "B"),
            ("sourceUrl", .str "http://b.example.com"),
            ("lastScrapedAt", .str "2026-01-01T00:00:00.000Z")]

/-- The record `jsonSiteB` validates to. -/
def siteB : RestaurantSite :=
  { slug := "b", name := "B", tagline := none, heroImage := none,
    logo := none, phone := none, email := none, address := none,
    hours := none, reservationUrl := none, orderOnlineUrl := none,
    social := none, sections := none, reviews := none, menu := none,
    images := none, theme := defaultTheme,
    sourceUrl := "http://b.example.com",
    lastScrapedAt := "2026-01-01T00:00:00.000Z" }

/-- A review as `extractReviews` builds it from an element whose rating
text begins with the digits `10`. -/
def overRatedReview : Review :=
  { source := none, text := "Absolutely wonderful food here!",
    rating := some 10, author := none }

/-! ## Claims -/

/-- C5: for every input record, when no `OPENAI_API_KEY` credential is
configured, `rewriteContent` returns its input unchanged whatever the
external request would have produced (no request is even issued in the
source: the guard returns before the client is constructed). -/
theorem rewrite_no_key_passthrough (jsonParse : String → Option Json)
    (outcome : ChatOutcome) (raw : RestaurantSite) :
    rewriteContent jsonParse none outcome raw = raw := rfl

/-- C7: `normalizeRestaurantData` is deterministic up to the timestamp:
two runs on the same `ScrapedData` and source URL agree on every field
except `lastScrapedAt`, whose value is exactly the run's clock reading. -/
theorem normalize_deterministic_up_to_timestamp (sd : ScrapedData)
    (url t1 t2 : String) :
    normalizeRestaurantData sd url t1 =
      { normalizeRestaurantData sd url t2 with lastScrapedAt := t1 } := rfl

/-- C4 (evaluation at the failing input): on the opening-hours text
`"Monday: 11am-10pm\nClosed"` the parser emits no `Hour` at all — the
single-day pattern demands minutes (`\d{1,2}:\d{2}`), so `11am` does not
match, contrary to the `"Monday: 11am-10pm"` example comment above the
pattern in the source.  The same line with minutes does parse, showing the
missing `:MM` is what fails. -/
theorem parseHours_monday_eval :
    parseHours (some "Monday: 11am-10pm\nClosed") = none ∧
    parseHours (some "Monday: 11:00am-10:00pm\nClosed") =
      some [{ day := "Monday", openTime := "11:00am", closeTime := "10:00pm" }] :=
  ⟨rfl, rfl⟩

/-- C3 (counterexample): the claimed slug `example-com` is not what the
code produces — `slugify` deletes characters outside `[\w\s-]`, so the
dot of the hostname is removed, not replaced by a hyphen. -/
theorem slug_example_com_cex :
    createSlugFromUrl "http://www.example.com/" ≠ "example-com" := by decide

/-- C3 (amended): `createSlugFromUrl` is invariant under the URL's
protocol — for every suffix that parses as a URL, the `http://` and
`https://` forms slugify alike — and under a leading `www.` in the
hostname, and both `http://www.example.com/` and `https://example.com`
yield the slug `examplecom` (dots are stripped, not hyphenated). -/
theorem slug_protocol_www_stable :
    (∀ rest : String, (urlHostname ("http://" ++ rest)).isSome →
      createSlugFromUrl ("http://" ++ rest) = createSlugFromUrl ("https://" ++ rest)) ∧
    createSlugFromUrl "http://www.example.com/" = "examplecom" ∧
    createSlugFromUrl "https://example.com" = "examplecom" := by
  refine ⟨fun rest h => ?_, rfl, rfl⟩
  have hsame : urlHostname ("http://" ++ rest) = urlHostname ("https://" ++ rest) := rfl
  unfold createSlugFromUrl
  rw [← hsame]
  cases hu : urlHostname ("http://" ++ rest) with
  | none => rw [hu] at h; exact absurd h (by simp)
  | some hostname => rfl

/-- Witness for `slug_protocol_www_stable` at the claim's own input. -/
theorem slug_protocol_www_stable_witness :
    (urlHostname ("http://" ++ "www.example.com/")).isSome = true ∧
    createSlugFromUrl ("http://" ++ "www.example.com/") =
      createSlugFromUrl ("https://" ++ "www.example.com/") :=
  ⟨by decide, slug_protocol_www_stable.1 "www.example.com/" (by decide)⟩

/-- C8 (counterexample): on a source URL the `URL` constructor rejects,
`normalizeRestaurantData` does not fail — no `NormalizationError` exists
anywhere in the code; `createSlugFromUrl` catches the URL failure and
slugifies the raw input, and normalization returns a complete record. -/
theorem normalize_no_failure_on_bad_url_cex :
    urlHostname "not a url" = none ∧
    normalizeRestaurantData emptyScraped "not a url" "2026-01-01T00:00:00.000Z" =
      { slug := "not-a-url", name := "Restaurant", tagline := none,
        heroImage := none, logo := none, phone := none, email := none,
        address := none, hours := none, reservationUrl := none,
        orderOnlineUrl := none,
        social := some { instagram := none, facebook := none, tiktok := none, x := none },
        sections := some [], reviews := some [], menu := some [],
        images := some [], theme := defaultTheme,
        sourceUrl := "not a url",
        lastScrapedAt := "2026-01-01T00:00:00.000Z" } :=
  ⟨rfl, rfl⟩

/-- C8 (amended): the Normalizer never fails at all.  A missing business
name defaults to the placeholder `Restaurant` (also when the scraped name
is the empty string, which is falsy), and an unparseable source URL does
not raise anything — the slug simply falls back to the slugified raw URL
string. -/
theorem normalize_defaults (sd : ScrapedData) (url now : String) :
    (normalizeRestaurantData sd url now).name = jsOrDefault sd.name "Restaurant" ∧
    (urlHostname url = none → (normalizeRestaurantData sd url now).slug = slugify url) := by
  refine ⟨rfl, fun h => ?_⟩
  simp [normalizeRestaurantData, createSlugFromUrl, h]

/-- Witness for `normalize_defaults` at a concrete unparseable URL. -/
theorem normalize_defaults_witness :
    urlHostname "not a url" = none ∧
    (normalizeRestaurantData emptyScraped "not a url" "t").slug = slugify "not a url" :=
  ⟨rfl, (normalize_defaults emptyScraped "not a url" "t").2 rfl⟩

/-- C9 (evaluation at the failing input): a review element with a
21+-character text and rating text `10/10` yields a review with rating 10;
the Normalizer carries it into the `Site` record untouched, violating the
schema bound `rating ∈ [1,5]` — neither extraction nor persistence runs
the zod validator. -/
theorem review_rating_out_of_bounds_eval :
    extractReviewFromElement "Absolutely wonderful food here!" "10/10" "" =
      some overRatedReview ∧
    (normalizeRestaurantData { emptyScraped with reviews := [overRatedReview] }
        "http://example.com" "t").reviews = some [overRatedReview] ∧
    ¬ (∀ r ∈ [overRatedReview], ∀ n, r.rating = some n → 1 ≤ n ∧ n ≤ 5) := by
  refine ⟨rfl, rfl, ?_⟩
  intro h
  have := h overRatedReview (by simp) 10 rfl
  omega

/-- C1: whenever the Rewriter accepts nothing — the request failed, the
response carried no content, the content is not parseable JSON, or the
parsed JSON fails `RestaurantSite` validation — `rewriteContent` returns
exactly its input record.  The function is total, so the stage can never
abort the pipeline. -/
theorem rewrite_fallback (jsonParse : String → Option Json)
    (apiKey : Option String) (outcome : ChatOutcome) (raw : RestaurantSite)
    (h : rewriteAccepted jsonParse outcome = none) :
    rewriteContent jsonParse apiKey outcome raw = raw := by
  by_cases hk : truthyS apiKey
  · cases outcome with
    | reqFailure => simp [rewriteContent, hk]
    | success content =>
      cases content with
      | none => simp [rewriteContent, hk]
      | some c =>
        by_cases hc : c = ""
        · simp [rewriteContent, hk, hc]
        · simp only [rewriteAccepted, if_neg hc] at h
          cases hp : jsonParse c with
          | none => simp [rewriteContent, hk, hc, hp]
          | some j =>
            rw [hp] at h
            simp only [Option.some_bind] at h
            simp [rewriteContent, hk, hc, hp, h]
  · simp [rewriteContent, hk]

/-- Witness for `rewrite_fallback`: a reply that is not JSON at all. -/
theorem rewrite_fallback_witness :
    rewriteAccepted (fun _ => none) (.success (some "no json here")) = none ∧
    rewriteContent (fun _ => none) (some "sk-key") (.success (some "no json here"))
      sampleSite = sampleSite :=
  ⟨rfl, rewrite_fallback (fun _ => none) (some "sk-key")
    (.success (some "no json here")) sampleSite rfl⟩

/-- C6 (counterexample): the Rewriter accepts a schema-valid reply whose
`slug` differs from the input's — validation checks the canonical shape
only, never that slug, theme or provenance match the input record —
and returns it, so the accepted output's slug is `b` while the input's
was `a`. -/
theorem rewrite_slug_not_preserved_cex :
    validateRestaurantSite jsonSiteB = some siteB ∧
    rewriteContent (fun _ => some jsonSiteB) (some "sk-key")
      (.success (some "reply")) sampleSite = siteB ∧
    siteB.slug ≠ sampleSite.slug :=
  ⟨rfl, rfl, by decide⟩

/-- C6 (amended): the record `rewriteContent` returns is either its input
unchanged (every fallback path, where slug, theme, `sourceUrl` and
`lastScrapedAt` are trivially preserved) or exactly the schema-validated
model reply — the code enforces no preservation of slug, theme or
provenance fields on the accept path. -/
theorem rewrite_accept_or_fallback (jsonParse : String → Option Json)
    (apiKey : Option String) (outcome : ChatOutcome) (raw : RestaurantSite) :
    rewriteContent jsonParse apiKey outcome raw = raw ∨
    rewriteAccepted jsonParse outcome =
      some (rewriteContent jsonParse apiKey outcome raw) := by
  by_cases hk : truthyS apiKey
  · cases outcome with
    | reqFailure => left; simp [rewriteContent, hk]
    | success content =>
      cases content with
      | none => left; simp [rewriteContent, hk]
      | some c =>
        by_cases hc : c = ""
        · left; simp [rewriteContent, hk, hc]
        · cases hp : jsonParse c with
          | none => left; simp [rewriteContent, hk, hc, hp]
          | some j =>
            cases hv : validateRestaurantSite j with
            | none => left; simp [rewriteContent, hk, hc, hp, hv]
            | some validated =>
              right
              simp [rewriteContent, rewriteAccepted, hk, hc, hp, hv]
  · left; simp [rewriteContent, hk]

/-- A filename built as `… ++ ".jpg"` is never empty. -/
theorem append_jpg_ne_empty (a : String) : a ++ ".jpg" ≠ "" := by
  intro h
  have hl := congrArg String.length h
  rw [String.length_append] at hl
  have h4 : ".jpg".length = 4 := rfl
  have h0 : "".length = 0 := rfl
  omega

/-- `downloadImage` with an explicitly supplied non-empty filename:
the public path on success, `null` on failure. -/
theorem downloadImage_some_filename (fetchOk : String → Bool)
    (url slug f : String) (hf : f ≠ "") :
    downloadImage fetchOk url slug (some f) =
      if fetchOk url then some ("/_imports/" ++ slug ++ "/" ++ f) else none := by
  simp [downloadImage, jsOrO, hf]

/-- The hero field of `downloadAllImages`, read off the record update. -/
theorem downloadAllImages_heroImage (fetchOk : String → Bool)
    (site : RestaurantSite) (slug : String) :
    (downloadAllImages fetchOk site slug).heroImage =
      match site.heroImage with
      | some img =>
        if truthyS (some img) ∧ ¬ jsStartsWith img "/" then
          match downloadImage fetchOk img slug (some "hero.jpg") with
          | some localPath => some localPath
          | none => some img
        else some img
      | none => none := rfl

/-- The logo field of `downloadAllImages`, read off the record update. -/
theorem downloadAllImages_logo (fetchOk : String → Bool)
    (site : RestaurantSite) (slug : String) :
    (downloadAllImages fetchOk site slug).logo =
      match site.logo with
      | some img =>
        if truthyS (some img) ∧ ¬ jsStartsWith img "/" then
          match downloadImage fetchOk img slug (some "logo.jpg") with
          | some localPath => some localPath
          | none => some img
        else some img
      | none => none := rfl

/-- The menu field of `downloadAllImages`, read off the record update. -/
theorem downloadAllImages_menu (fetchOk : String → Bool)
    (site : RestaurantSite) (slug : String) :
    (downloadAllImages fetchOk site slug).menu =
      match site.menu with
      | some categories => some (categories.map (fun category =>
          { category with items := category.items.map (localizeMenuItem fetchOk slug) }))
      | none => none := rfl

/-- The sections field of `downloadAllImages`, read off the record update. -/
theorem downloadAllImages_sections (fetchOk : String → Bool)
    (site : RestaurantSite) (slug : String) :
    (downloadAllImages fetchOk site slug).sections =
      match site.sections with
      | some ss => some (ss.map (localizeSection fetchOk slug))
      | none => none := rfl

/-- C2: per-reference behaviour of `downloadAllImages` for every record,
slug and download oracle: a remote (non-`/`, non-empty) hero or logo
reference becomes `/_imports/<slug>/hero.jpg` resp. `logo.jpg` exactly
when its download succeeds and keeps its original remote URL when it
fails; the menu and section lists are mapped element-wise, where a remote
item or section image becomes `/_imports/<slug>/<slugified-name>.jpg` on
success and stays the original URL on failure.  The function is total, so
one failed download never aborts the others or the pipeline. -/
theorem images_per_reference (fetchOk : String → Bool)
    (site : RestaurantSite) (slug : String) :
    (∀ img, site.heroImage = some img → img ≠ "" → jsStartsWith img "/" = false →
      (downloadAllImages fetchOk site slug).heroImage =
        some (if fetchOk img then "/_imports/" ++ slug ++ "/hero.jpg" else img)) ∧
    (∀ img, site.logo = some img → img ≠ "" → jsStartsWith img "/" = false →
      (downloadAllImages fetchOk site slug).logo =
        some (if fetchOk img then "/_imports/" ++ slug ++ "/logo.jpg" else img)) ∧
    (∀ item : MenuItem, ∀ img, item.image = some img → img ≠ "" →
      jsStartsWith img "/" = false →
      localizeMenuItem fetchOk slug item =
        { item with image := some (if fetchOk img then
            "/_imports/" ++ slug ++ "/" ++ (slugify item.name ++ ".jpg") else img) }) ∧
    (∀ s : SiteSection, ∀ img, s.image = some img → img ≠ "" →
      jsStartsWith img "/" = false →
      localizeSection fetchOk slug s =
        { s with image := some (if fetchOk img then
            "/_imports/" ++ slug ++ "/" ++ (slugify s.title ++ ".jpg") else img) }) ∧
    (∀ categories, site.menu = some categories →
      (downloadAllImages fetchOk site slug).menu =
        some (categories.map (fun category =>
          { category with items := category.items.map (localizeMenuItem fetchOk slug) }))) ∧
    (∀ ss, site.sections = some ss →
      (downloadAllImages fetchOk site slug).sections =
        some (ss.map (localizeSection fetchOk slug))) := by
  refine ⟨fun img h hne hsw => ?_, fun img h hne hsw => ?_,
          fun item img h hne hsw => ?_, fun s img h hne hsw => ?_,
          fun categories h => ?_, fun ss h => ?_⟩
  · rw [downloadAllImages_heroImage, h]
    have hd := downloadImage_some_filename fetchOk img slug "hero.jpg" (by decide)
    dsimp only
    rw [if_pos ⟨by simp [truthyS, hne], by simp [hsw]⟩, hd]
    cases hf : fetchOk img
    · simp [hf]
    · simp [hf, String.append_assoc]
  · rw [downloadAllImages_logo, h]
    have hd := downloadImage_some_filename fetchOk img slug "logo.jpg" (by decide)
    dsimp only
    rw [if_pos ⟨by simp [truthyS, hne], by simp [hsw]⟩, hd]
    cases hf : fetchOk img
    · simp [hf]
    · simp [hf, String.append_assoc]
  · have hd := downloadImage_some_filename fetchOk img slug
      (slugify item.name ++ ".jpg") (append_jpg_ne_empty _)
    unfold localizeMenuItem
    rw [h]
    dsimp only
    rw [if_pos ⟨by simp [truthyS, hne], by simp [hsw]⟩, hd]
    cases hf : fetchOk img
    · simp only [hf, Bool.false_eq_true, if_neg, ite_false]
      rw [← h]
    · simp [hf]
  · have hd := downloadImage_some_filename fetchOk img slug
      (slugify s.title ++ ".jpg") (append_jpg_ne_empty _)
    unfold localizeSection
    rw [h]
    dsimp only
    rw [if_pos ⟨by simp [truthyS, hne], by simp [hsw]⟩, hd]
    cases hf : fetchOk img
    · simp only [hf, Bool.false_eq_true, if_neg, ite_false]
      rw [← h]
    · simp [hf]
  · rw [downloadAllImages_menu, h]
  · rw [downloadAllImages_sections, h]

/-- Witness for `images_per_reference`: in `sampleSite` under
`fetchOkSample` the logo's download fails while the hero's succeeds — the
hero is rewritten to its local path and the logo keeps its remote URL. -/
theorem images_per_reference_witness :
    (downloadAllImages fetchOkSample sampleSite "a-slug").heroImage =
      some "/_imports/a-slug/hero.jpg" ∧
    (downloadAllImages fetchOkSample sampleSite "a-slug").logo =
      some "http://img.example.com/logo.png" := by
  have h := images_per_reference fetchOkSample sampleSite "a-slug"
  constructor
  · have h1 := h.1 "http://img.example.com/h.png" rfl (by decide) (by decide)
    rw [h1]; rfl
  · have h2 := h.2.1 "http://img.example.com/logo.png" rfl (by decide) (by decide)
    rw [h2]; rfl

/-- A menu item with its image reference removed (for stating that
localization changes nothing but images). -/
def eraseItemImage (i : MenuItem) : MenuItem := { i with image := none }

/-- A section with its image reference removed. -/
def eraseSectionImage (s : SiteSection) : SiteSection := { s with image := none }

/-- A menu with every image reference removed. -/
def menuNoImages (m : List MenuCategory) : List MenuCategory :=
  m.map (fun c => { c with items := c.items.map eraseItemImage })

/-- A section list with every image reference removed. -/
def sectionsNoImages (ss : List SiteSection) : List SiteSection :=
  ss.map eraseSectionImage

/-- Localizing a menu item touches only its image field. -/
theorem erase_localizeMenuItem (fetchOk : String → Bool) (slug : String)
    (i : MenuItem) :
    eraseItemImage (localizeMenuItem fetchOk slug i) = eraseItemImage i := by
  unfold localizeMenuItem
  cases hi : i.image with
  | none => rfl
  | some img =>
    dsimp only
    split
    · cases hdl : downloadImage fetchOk img slug (some (slugify i.name ++ ".jpg")) <;>
        simp [hdl, eraseItemImage]
    · rfl

/-- Localizing a section touches only its image field. -/
theorem erase_localizeSection (fetchOk : String → Bool) (slug : String)
    (s : SiteSection) :
    eraseSectionImage (localizeSection fetchOk slug s) = eraseSectionImage s := by
  unfold localizeSection
  cases hi : s.image with
  | none => rfl
  | some img =>
    dsimp only
    split
    · cases hdl : downloadImage fetchOk img slug (some (slugify s.title ++ ".jpg")) <;>
        simp [hdl, eraseSectionImage]
    · rfl

/-- Image-erased view of the localized menu. -/
theorem menuNoImages_localize (fetchOk : String → Bool) (slug : String)
    (cats : List MenuCategory) :
    menuNoImages (cats.map (fun category =>
      { category with items := category.items.map (localizeMenuItem fetchOk slug) })) =
      menuNoImages cats := by
  unfold menuNoImages
  rw [List.map_map]
  apply List.map_congr_left
  intro c _
  dsimp only [Function.comp]
  congr 1
  rw [List.map_map]
  apply List.map_congr_left
  intro i _
  exact erase_localizeMenuItem fetchOk slug i

/-- Image-erased view of the localized sections. -/
theorem sectionsNoImages_localize (fetchOk : String → Bool) (slug : String)
    (ss : List SiteSection) :
    sectionsNoImages (ss.map (localizeSection fetchOk slug)) =
      sectionsNoImages ss := by
  unfold sectionsNoImages
  rw [List.map_map]
  apply List.map_congr_left
  intro s _
  exact erase_localizeSection fetchOk slug s

/-- C10: `downloadAllImages` changes at most the four image-reference
positions.  Any reference already starting with `/` is left untouched
(hero, logo, each menu item, each section); every non-image field — slug,
name, tagline, phone, email, address, hours, reservation and order links,
social, reviews, the top-level images array, theme, sourceUrl,
lastScrapedAt — is returned unchanged, and the menus and sections agree
with the input everywhere except item/section images. -/
theorem images_frame (fetchOk : String → Bool) (site : RestaurantSite)
    (slug : String) :
    (∀ img, site.heroImage = some img → jsStartsWith img "/" = true →
      (downloadAllImages fetchOk site slug).heroImage = some img) ∧
    (∀ img, site.logo = some img → jsStartsWith img "/" = true →
      (downloadAllImages fetchOk site slug).logo = some img) ∧
    (∀ item : MenuItem, ∀ img, item.image = some img → jsStartsWith img "/" = true →
      localizeMenuItem fetchOk slug item = item) ∧
    (∀ s : SiteSection, ∀ img, s.image = some img → jsStartsWith img "/" = true →
      localizeSection fetchOk slug s = s) ∧
    (downloadAllImages fetchOk site slug).slug = site.slug ∧
    (downloadAllImages fetchOk site slug).name = site.name ∧
    (downloadAllImages fetchOk site slug).tagline = site.tagline ∧
    (downloadAllImages fetchOk site slug).phone = site.phone ∧
    (downloadAllImages fetchOk site slug).email = site.email ∧
    (downloadAllImages fetchOk site slug).address = site.address ∧
    (downloadAllImages fetchOk site slug).hours = site.hours ∧
    (downloadAllImages fetchOk site slug).reservationUrl = site.reservationUrl ∧
    (downloadAllImages fetchOk site slug).orderOnlineUrl = site.orderOnlineUrl ∧
    (downloadAllImages fetchOk site slug).social = site.social ∧
    (downloadAllImages fetchOk site slug).reviews = site.reviews ∧
    (downloadAllImages fetchOk site slug).images = site.images ∧
    (downloadAllImages fetchOk site slug).theme = site.theme ∧
    (downloadAllImages fetchOk site slug).sourceUrl = site.sourceUrl ∧
    (downloadAllImages fetchOk site slug).lastScrapedAt = site.lastScrapedAt ∧
    Option.map menuNoImages (downloadAllImages fetchOk site slug).menu =
      Option.map menuNoImages site.menu ∧
    Option.map sectionsNoImages (downloadAllImages fetchOk site slug).sections =
      Option.map sectionsNoImages site.sections := by
  refine ⟨fun img h hsw => ?_, fun img h hsw => ?_,
          fun item img h hsw => ?_, fun s img h hsw => ?_,
          rfl, rfl, rfl, rfl, rfl, rfl, rfl, rfl, rfl, rfl, rfl, rfl, rfl, rfl,
          rfl, ?_, ?_⟩
  · rw [downloadAllImages_heroImage, h]
    dsimp only
    rw [if_neg (fun hcond => hcond.2 hsw)]
  · rw [downloadAllImages_logo, h]
    dsimp only
    rw [if_neg (fun hcond => hcond.2 hsw)]
  · unfold localizeMenuItem
    rw [h]
    dsimp only
    rw [if_neg (fun hcond => hcond.2 hsw)]
  · unfold localizeSection
    rw [h]
    dsimp only
    rw [if_neg (fun hcond => hcond.2 hsw)]
  · rw [downloadAllImages_menu]
    cases hm : site.menu with
    | none => rfl
    | some cats =>
      show some (menuNoImages (cats.map _)) = some (menuNoImages cats)
      rw [menuNoImages_localize]
  · rw [downloadAllImages_sections]
    cases hm : site.sections with
    | none => rfl
    | some ss =>
      show some (sectionsNoImages (ss.map _)) = some (sectionsNoImages ss)
      rw [sectionsNoImages_localize]

/-- Witness for `images_frame`: a local hero path and a local menu-item
image survive localization untouched. -/
theorem images_frame_witness :
    (downloadAllImages fetchOkSample sampleSiteLocal "w").heroImage =
      some "/local/hero.png" ∧
    localizeMenuItem fetchOkSample "w"
      { name := "Local Dish", description := none, price := none,
        image := some "/already/local.png", dietary := none } =
      { name := "Local Dish", description := none, price := none,
        image := some "/already/local.png", dietary := none } := by
  have h := images_frame fetchOkSample sampleSiteLocal "w"
  exact ⟨h.1 "/local/hero.png" rfl (by decide),
         h.2.2.1 _ "/already/local.png" rfl (by decide)⟩
